import Mathlib

/-!
Verification of the ratcrowler crawler against its specification.

The definitions below are shallow embeddings of the Python sources in
`src/rat/`: `sqlalchemy_database.py` (quota-aware router, page and score
stores), `backlink.py` (URL normalization, retry delays, backlink
extraction), `backlinkprocessor.py` (link graph construction),
`progress.py` and `auto_batch_crawler.py` (batch progress tracking).
Machine-level details that the claims do not touch (HTTP transport,
HTML parsing, SQL text) are abstracted into explicit inputs; every
control-flow decision relevant to a claim is transcribed from the source.
-/

namespace RatCrawler

/-! ## Quota-aware router (`sqlalchemy_database.py`) -/

/-- Usage figures returned by the provider usage API for one backend.
Either field may be absent or null in the JSON payload, which the code
reads with `usage.get(..., 0)` followed by a `None` check; we model the
fields as `Option Nat`. -/
structure Usage where
  storage_bytes : Option Nat
  rows_written : Option Nat
deriving Repr, DecidableEq

/-- Constant `SQLAlchemyDatabase.STORAGE_LIMIT_BYTES = 5 * 1024 * 1024 * 1024`. -/
def STORAGE_LIMIT_BYTES : Nat := 5 * 1024 * 1024 * 1024

/-- Constant `SQLAlchemyDatabase.DAILY_WRITE_LIMIT = 10_000_000`. -/
def DAILY_WRITE_LIMIT : Nat := 10000000

/-- Model of `SQLAlchemyDatabase._check_quota`: a missing usage payload makes the
backend unusable; missing or null fields default to zero; the backend is
usable when storage and writes are strictly under the two hard limits. -/
def check_quota (usage : Option Usage) : Bool :=
  match usage with
  | none => false
  | some u =>
    let storage := u.storage_bytes.getD 0
    let writes := u.rows_written.getD 0
    decide (storage < STORAGE_LIMIT_BYTES) && decide (writes < DAILY_WRITE_LIMIT)

/-- Loop body of `SQLAlchemyDatabase._choose_db`. The Python code draws
`max_attempts = len(db_list)` elements from the persistent round-robin
cycle; a draw whose name was already checked consumes an attempt
(`continue`); otherwise the backend name is added to `checked`, its usage
is fetched through `health.current_limit` (recorded here in `fetched`),
and the backend is returned as soon as `_check_quota` passes. Returns the
chosen backend, if any, together with the names whose usage was fetched
during this call. -/
def choose_db_loop (pool : List String) (usage : String → Option Usage) :
    Nat → Nat → List String → List String → Option String × List String
  | 0, _, _, fetched => (none, fetched.reverse)
  | n + 1, pos, checked, fetched =>
    match pool.get? (pos % pool.length) with
    | none => (none, fetched.reverse)
    | some name =>
      if name ∈ checked then
        choose_db_loop pool usage n (pos + 1) checked fetched
      else if check_quota (usage name) then
        (some name, (name :: fetched).reverse)
      else
        choose_db_loop pool usage n (pos + 1) (name :: checked) (name :: fetched)

/-- Model of `SQLAlchemyDatabase._choose_db` for one pool: raises when the pool is
empty, otherwise runs the round-robin scan starting at the cycle position
`startPos` left by earlier calls. The first component of the `ok` result
is the chosen backend (`none` when every checked backend is over quota);
the second lists the backends whose quota was fetched in this call. -/
def choose_db (pool : List String) (usage : String → Option Usage) (startPos : Nat) :
    Except String (Option String × List String) :=
  if pool = [] then Except.error "No databases available"
  else Except.ok (choose_db_loop pool usage pool.length startPos [] [])

/-- Error message of `get_specific_db_session` when the name is absent. -/
def db_not_found_msg (db_name : String) : String :=
  "Database " ++ db_name ++ " not found"

/-- Error message of `get_specific_db_session` when the named backend is
over quota. -/
def db_over_quota_msg (db_name : String) : String :=
  "Database " ++ db_name ++ " is over quota limits"

/-- Model of `SQLAlchemyDatabase.get_specific_db_session`: find the backend by name
in the requested pool; raise when absent; raise when `_check_quota` fails
for it; otherwise return a session bound to it (modelled by the name). -/
def get_specific_db_session (pool : List String) (usage : String → Option Usage)
    (db_name : String) : Except String String :=
  match pool.find? (fun n => n == db_name) with
  | none => Except.error (db_not_found_msg db_name)
  | some db =>
    if check_quota (usage db) then Except.ok db
    else Except.error (db_over_quota_msg db_name)

/-! ## URL normalization (`backlink.py`) -/

/-- Model of Python `str.lower` restricted to its ASCII behavior, stated
on the character list so that it evaluates by kernel reduction. -/
def strToLower (s : String) : String := String.mk (s.data.map Char.toLower)

/-- Model of Python `str.endswith`, stated on the character lists. -/
def strEndsWith (s post : String) : Bool := List.isSuffixOf post.data s.data

/-- Model of the Python slice `s[:n]`, stated on the character list. -/
def strTake (s : String) (n : Nat) : String := String.mk (s.data.take n)

/-- Components of an absolute URL as produced by `urllib.parse.urlparse`:
scheme, network location (host, case preserved by the parser), path, query
given as the ordered list of `name=value` parameters, and fragment. -/
structure UrlParts where
  scheme : String
  netloc : String
  path : String
  query : List (String × String)
  fragment : String
deriving Repr, DecidableEq

/-- Component-level model of Python `urllib.parse.urlparse` applied to an
absolute URL: the parser lowercases the scheme and passes every other
component through unchanged. -/
def pyUrlparse (p : UrlParts) : UrlParts :=
  { p with scheme := strToLower p.scheme }

/-- Grouping step of `urllib.parse.parse_qs` combined with the `v[0]`
projection in `normalize_url`: for each parameter name, only its first
value survives, in first-occurrence order. -/
def firstValues : List (String × String) → List (String × String)
  | [] => []
  | (k, v) :: rest => (k, v) :: firstValues (rest.filter (fun q => ¬ (q.1 == k)))
termination_by l => l.length
decreasing_by
  simp only [List.length_cons]
  exact Nat.lt_succ_of_le (List.length_filter_le _ _)

/-- Order on query parameters used by `sorted(query_params.items())`:
compare by parameter name. -/
def queryLE (a b : String × String) : Prop := a.1 ≤ b.1

instance : DecidableRel queryLE := fun a b => inferInstanceAs (Decidable (a.1 ≤ b.1))

instance : IsTotal (String × String) queryLE := ⟨fun a b => le_total a.1 b.1⟩

instance : IsTrans (String × String) queryLE := ⟨fun _ _ _ h1 h2 => le_trans h1 h2⟩

/-- Query rewriting in `BacklinkDiscoverer.normalize_url`: parse the query
into per-name groups, keep the first value of each name, and sort the
resulting pairs by name. -/
def sortQueryByKey (q : List (String × String)) : List (String × String) :=
  List.insertionSort queryLE (firstValues q)

/-- Model of `BacklinkDiscoverer.normalize_url`: parse the URL, drop the fragment,
and, when a query is present, rewrite it to the name-sorted first-value
form. The scheme is lowercased by the parser; the network location is
passed through untouched. -/
def normalize_url (p : UrlParts) : UrlParts :=
  let parsed := pyUrlparse p
  let parsed := { parsed with fragment := "" }
  if parsed.query = [] then parsed
  else { parsed with query := sortQueryByKey parsed.query }

/-- Extensions skipped by `BacklinkDiscoverer.is_valid_url`. -/
def skip_extensions : List String :=
  [".pdf", ".jpg", ".jpeg", ".png", ".gif", ".css", ".js",
   ".xml", ".zip", ".doc", ".docx", ".xls", ".xlsx", ".mp4",
   ".mp3", ".avi", ".mov", ".ico", ".svg", ".woff", ".ttf"]

/-- Model of `BacklinkDiscoverer.is_valid_url` (with the social-media skip disabled
as in the source, where `skip_social_media = False`): the scheme must be
http or https and the lowercased path must not end in a skipped
extension. -/
def is_valid_url (p : UrlParts) : Bool :=
  (p.scheme == "http" || p.scheme == "https")
    && !(skip_extensions.any (fun ext => strEndsWith (strToLower p.path) ext))

/-! ## Backlink extraction (`backlink.py`) -/

/-- One anchor element of a fetched page, after `urljoin` has resolved its
href against the page URL: the absolute link target, the anchor text, the
`rel` attribute tokens, and the text of the parent element. -/
structure PageLink where
  url : UrlParts
  anchor_text : String
  rel : List String
  parent_text : String
deriving Repr, DecidableEq

/-- A fetched page as seen by `extract_links_and_backlinks`: the final
response URL (returned verbatim by `fetch_page_with_retry` as
`str(response.url)`), the page title, and its anchor elements. -/
structure FetchedPage where
  url : UrlParts
  title : String
  links : List PageLink
deriving Repr, DecidableEq

/-- The `BacklinkData` dataclass of `backlink.py`, with URLs kept in
component form. -/
structure BacklinkData where
  source_url : UrlParts
  target_url : UrlParts
  anchor_text : String
  context : String
  page_title : String
  is_nofollow : Bool
deriving Repr, DecidableEq

/-- Backlink emission of `BacklinkDiscoverer.extract_links_and_backlinks`:
each link is normalized, dropped unless `is_valid_url` accepts the
normalized form, and recorded as a backlink when the normalized host is in
`target_domains`. The source URL is the page URL verbatim; the context is
the first 250 characters of the parent text. -/
def extract_backlinks (page : FetchedPage) (target_domains : List String) :
    List BacklinkData :=
  page.links.filterMap (fun link =>
    let normalized := normalize_url link.url
    if is_valid_url normalized then
      if normalized.netloc ∈ target_domains then
        some { source_url := page.url
               target_url := normalized
               anchor_text := link.anchor_text
               context := strTake link.parent_text 250
               page_title := page.title
               is_nofollow := link.rel.contains "nofollow" }
      else none
    else none)

/-- Seed host set built by `BacklinkDiscoverer.discover`:
`target_domains = set of urlparse(url).netloc over the seed urls`. -/
def target_domains_of (seeds : List UrlParts) : List String :=
  seeds.map (fun s => s.netloc)

/-! ## Retry delay (`backlink.py`) -/

/-- Per-host base delay in `fetch_page_with_retry`:
`current_delay = self.delay * 3 if is_social else self.delay`. -/
def current_delay (delay : ℚ) (is_social : Bool) : ℚ :=
  if is_social then delay * 3 else delay

/-- Sleep performed at the top of retry iteration `attempt` of
`fetch_page_with_retry`: nothing is slept on the first attempt; on every
later attempt the code sleeps
`retry_delay = current_delay * (attempt + random.uniform(1.0, 2.0))`,
where `u` is the uniform draw. -/
def retry_sleep (delay : ℚ) (is_social : Bool) (attempt : Nat) (u : ℚ) : Option ℚ :=
  if attempt > 0 then some (current_delay delay is_social * (attempt + u)) else none

/-! ## Progress tracking (`progress.py`, `auto_batch_crawler.py`) -/

/-- The progress dictionary persisted by `CrawlProgress`, restricted to
the fields the batch loop mutates. -/
structure ProgressData where
  current_page : Nat
  batch_size : Nat
  total_urls : Nat
  urls_processed : Nat
  successful_crawls : Nat
  failed_crawls : Nat
  is_running : Bool
deriving Repr, DecidableEq

/-- The result dictionary returned by
`AutoBatchCrawler.crawl_single_batch`. -/
structure BatchResults where
  urls_processed : Nat
  successful : Nat
  failed : Nat
  finished : Bool
deriving Repr, DecidableEq

/-- Model of `CrawlProgress.update_page_progress`: the saved record points at the
next page (`page + 1`) and accumulates the batch counters. -/
def update_page_progress (pd : ProgressData) (page : Nat) (br : BatchResults) :
    ProgressData :=
  { pd with
    current_page := page + 1
    urls_processed := pd.urls_processed + br.urls_processed
    successful_crawls := pd.successful_crawls + br.successful
    failed_crawls := pd.failed_crawls + br.failed }

/-- Outcome of crawling one batch of URLs, abstracting
`crawler.crawl_urls_batch`: either counts of successful and failed URLs,
or an exception caught by the `except` branch. -/
inductive BatchOutcome where
  | ok (successful failed : Nat)
  | exn
deriving Repr, DecidableEq

/-- Model of `AutoBatchCrawler.crawl_single_batch`: an empty batch reports the run
finished; otherwise both the normal return and the exception handler
report `urls_processed = len(batch_urls)`. -/
def crawl_single_batch (batch_urls : List String) (outcome : BatchOutcome) :
    BatchResults :=
  if batch_urls = [] then { urls_processed := 0, successful := 0, failed := 0, finished := true }
  else
    match outcome with
    | BatchOutcome.ok s f =>
      { urls_processed := batch_urls.length, successful := s, failed := f, finished := false }
    | BatchOutcome.exn =>
      { urls_processed := batch_urls.length, successful := 0,
        failed := batch_urls.length, finished := false }

/-! ## Backlink storage (`sqlalchemy_database.py`, `models.py`) -/

/-- A backlink record as handed to `store_backlinks` (string URLs, as in
the `BacklinkData` dataclass of `backlinkprocessor.py`). -/
structure BacklinkRecord where
  source_url : String
  target_url : String
  anchor_text : String
  context : String
  page_title : String
  domain_authority : ℚ
  is_nofollow : Bool
deriving Repr, DecidableEq

/-- A row of the `backlinks` table of `models.py`. The table declares an
autoincrement primary key and no uniqueness constraint over
`(source_url, target_url, anchor_text)`, so an insert of a duplicate
triple succeeds. -/
structure BacklinkRow where
  source_url : String
  target_url : String
  anchor_text : String
  context : String
  page_title : String
  domain_authority : ℚ
  is_nofollow : Bool
deriving Repr, DecidableEq

/-- Row built for one record inside `store_backlinks`. -/
def toBacklinkRow (b : BacklinkRecord) : BacklinkRow :=
  { source_url := b.source_url
    target_url := b.target_url
    anchor_text := b.anchor_text
    context := b.context
    page_title := b.page_title
    domain_authority := b.domain_authority
    is_nofollow := b.is_nofollow }

/-- Worker for `chunksOf`, structurally recursive on a fuel counter. -/
def chunksOfFuel (n : Nat) : Nat → List α → List (List α)
  | _, [] => []
  | 0, _ :: _ => []
  | fuel + 1, a :: tl => (a :: tl).take n :: chunksOfFuel n fuel ((a :: tl).drop n)

/-- Split a list into consecutive chunks of `n` elements, as the slices
`backlinks[i : i + chunk_size]` do; the fuel argument makes the recursion
structural and is large enough to never run out. -/
def chunksOf (n : Nat) (l : List α) : List (List α) :=
  chunksOfFuel n l.length l

/-- Model of `SQLAlchemyDatabase.store_backlinks`: the input is processed in chunks
of 5,000; each chunk is turned into `Backlink` rows with `add_all` and
committed. Since the `backlinks` table carries no uniqueness constraint,
every insert succeeds and each committed chunk appends its rows to the
table. -/
def store_backlinks (table : List BacklinkRow) (backlinks : List BacklinkRecord) :
    List BacklinkRow :=
  (chunksOf 5000 backlinks).foldl
    (fun acc chunk => acc ++ chunk.map toBacklinkRow) table

/-! ## Link graph construction (`backlinkprocessor.py`) -/

/-- The directed link graph as an edge list: each entry keys an ordered
pair `(source, target)` to its `weight` attribute. -/
abbrev LinkGraph := List ((String × String) × ℚ)

/-- Model of `networkx.DiGraph.add_edge u v weight=w`: when the edge already
exists its attributes are overwritten; otherwise the edge is added. -/
def add_edge : LinkGraph → String → String → ℚ → LinkGraph
  | [], u, v, w => [((u, v), w)]
  | e :: es, u, v, w =>
    if e.1 = (u, v) then ((u, v), w) :: es else e :: add_edge es u v w

/-- Edge weight chosen in `BacklinkProcessor.build_link_graph`:
`1.0 if not backlink.is_nofollow else 0.1`. -/
def link_weight (b : BacklinkRecord) : ℚ :=
  if b.is_nofollow then 1 / 10 else 1

/-- Model of `BacklinkProcessor.build_link_graph`: one `add_edge` call per recorded
backlink, in list order. -/
def build_link_graph (backlinks : List BacklinkRecord) : LinkGraph :=
  backlinks.foldl (fun g b => add_edge g b.source_url b.target_url (link_weight b)) []

/-- Weight attribute of the edge `u -> v` in the graph, if present
(`networkx` edge attribute lookup). -/
def edge_weight : LinkGraph → String → String → Option ℚ
  | [], _, _ => none
  | e :: es, u, v => if e.1 = (u, v) then some e.2 else edge_weight es u v

/-- Last backlink from `u` to `v` in the record list (the one whose
`add_edge` call lands last). -/
def last_backlink_to (bs : List BacklinkRecord) (u v : String) : Option BacklinkRecord :=
  bs.foldl (fun acc b => if b.source_url = u ∧ b.target_url = v then some b else acc) none

/-- Edge weight the specification text assigns to the pair `u -> v`: the
maximum of the weights of all recorded backlinks from `u` to `v`. -/
def spec_max_weight (bs : List BacklinkRecord) (u v : String) : Option ℚ :=
  ((bs.filter (fun b => b.source_url == u && b.target_url == v)).map link_weight).max?

/-! ## Score storage (`sqlalchemy_database.py`) -/

/-- Upsert of one keyed score into a table, the
select-then-update-or-insert pattern shared by `store_domain_scores` and
`store_pagerank_scores`. -/
def upsert_score (table : List (String × ℚ)) (key : String) (score : ℚ) :
    List (String × ℚ) :=
  if table.any (fun p => p.1 == key) then
    table.map (fun p => if p.1 == key then (key, score) else p)
  else table ++ [(key, score)]

/-- Apply a list of upserts in order. -/
def apply_upserts (table : List (String × ℚ)) (entries : List (String × ℚ)) :
    List (String × ℚ) :=
  entries.foldl (fun acc e => upsert_score acc e.1 e.2) table

/-- Model of `SQLAlchemyDatabase.store_domain_scores`: the entries are processed in
chunks of 1,000; each chunk runs in a fresh session and is committed at
the end; when the chunk raises (`fails` holds for its index) it is rolled
back, skipped, and processing continues with the next chunk. -/
def store_domain_scores (fails : Nat → Bool) (table : List (String × ℚ))
    (entries : List (String × ℚ)) : List (String × ℚ) :=
  ((chunksOf 1000 entries).enum.foldl
    (fun acc c => if fails c.1 then acc else apply_upserts acc c.2) table)

/-- Loop of `SQLAlchemyDatabase.store_pagerank_scores` over the remaining
entries: `committed` is the table state at the last commit, `view` the
session view including uncommitted work, `count` the number of records
processed so far, and `idx` the index of the next entry. Processing an
entry upserts it into the view; every 100th record triggers an
intermediate commit; an error (`fails idx`) rolls the session back to the
last commit and re-raises, abandoning the remaining entries. A final
commit publishes the view. -/
def store_pagerank_loop (fails : Nat → Bool) :
    List (String × ℚ) → List (String × ℚ) → List (String × ℚ) → Nat → Nat →
    Except (List (String × ℚ)) (List (String × ℚ))
  | [], committed, view, _, _ =>
    let _ := committed
    Except.ok view
  | e :: rest, committed, view, count, idx =>
    if fails idx then Except.error committed
    else
      let view := upsert_score view e.1 e.2
      let count := count + 1
      let committed := if count % 100 = 0 then view else committed
      store_pagerank_loop fails rest committed view count (idx + 1)

/-- Model of `SQLAlchemyDatabase.store_pagerank_scores`: a single session processes
every entry; on success the final commit leaves all upserts applied; on an
error the table retains only the work committed before the error. -/
def store_pagerank_scores (fails : Nat → Bool) (table : List (String × ℚ))
    (entries : List (String × ℚ)) :
    Except (List (String × ℚ)) (List (String × ℚ)) :=
  store_pagerank_loop fails entries table table 0 0

/-! ## Crawled page storage (`sqlalchemy_database.py`, `models.py`) -/

/-- A row of the `crawled_pages` table of `models.py` (timestamps and the
autoincrement id omitted; `crawl_time` kept as an opaque string since the
update branch never touches it). -/
structure CrawledPageRow where
  session_id : Nat
  url : String
  original_url : Option String
  redirect_chain : Option String
  title : Option String
  meta_description : Option String
  content_text : Option String
  content_html : Option String
  content_hash : Option String
  word_count : Option Int
  page_size : Option Int
  http_status_code : Option Int
  response_time_ms : Option Int
  language : Option String
  charset : Option String
  h1_tags : Option String
  h2_tags : Option String
  meta_keywords : Option String
  canonical_url : Option String
  robots_meta : Option String
  internal_links_count : Option Int
  external_links_count : Option Int
  images_count : Option Int
  content_type : Option String
  file_extension : Option String
  crawl_time : String
deriving Repr, DecidableEq

/-- The `page_data` dictionary passed to `store_crawled_page`, restricted
to the keys the function reads (`page_data.get(...)` yields `None` for
missing keys, hence `Option` fields). -/
structure PageData where
  url : String
  original_url : Option String
  redirect_chain : Option String
  title : Option String
  meta_description : Option String
  content_text : Option String
  content_html : Option String
  content_hash : Option String
  word_count : Option Int
  page_size : Option Int
  http_status_code : Option Int
  response_time_ms : Option Int
  language : Option String
  charset : Option String
  h1_tags : Option String
  h2_tags : Option String
  meta_keywords : Option String
  canonical_url : Option String
  robots_meta : Option String
  internal_links_count : Option Int
  external_links_count : Option Int
  images_count : Option Int
  content_type : Option String
  file_extension : Option String
deriving Repr, DecidableEq

/-- The update branch of `store_crawled_page`: the listed fields of the
existing row are overwritten from `page_data`; every assignment of the
branch is transcribed here, and no other field is assigned. -/
def update_existing_page (existing : CrawledPageRow) (pd : PageData) : CrawledPageRow :=
  { existing with
    title := pd.title
    meta_description := pd.meta_description
    content_text := pd.content_text
    content_html := pd.content_html
    content_hash := pd.content_hash
    word_count := pd.word_count
    page_size := pd.page_size
    http_status_code := pd.http_status_code
    response_time_ms := pd.response_time_ms
    language := pd.language
    charset := pd.charset
    canonical_url := pd.canonical_url
    robots_meta := pd.robots_meta
    internal_links_count := pd.internal_links_count
    external_links_count := pd.external_links_count
    images_count := pd.images_count
    content_type := pd.content_type
    file_extension := pd.file_extension }

/-- The insert branch of `store_crawled_page`: a fresh row bound to the
session that made the call. -/
def new_crawled_page (pd : PageData) (session_id : Nat) (now : String) : CrawledPageRow :=
  { session_id := session_id
    url := pd.url
    original_url := pd.original_url
    redirect_chain := pd.redirect_chain
    title := pd.title
    meta_description := pd.meta_description
    content_text := pd.content_text
    content_html := pd.content_html
    content_hash := pd.content_hash
    word_count := pd.word_count
    page_size := pd.page_size
    http_status_code := pd.http_status_code
    response_time_ms := pd.response_time_ms
    language := pd.language
    charset := pd.charset
    h1_tags := pd.h1_tags
    h2_tags := pd.h2_tags
    meta_keywords := pd.meta_keywords
    canonical_url := pd.canonical_url
    robots_meta := pd.robots_meta
    internal_links_count := pd.internal_links_count
    external_links_count := pd.external_links_count
    images_count := pd.images_count
    content_type := pd.content_type
    file_extension := pd.file_extension
    crawl_time := now }

/-- Table effect of `store_crawled_page` on the `crawled_pages` rows of
the pinned backend: the row selected by
`select(CrawledPage).where(CrawledPage.url == url)` (the first matching
row; the column is declared unique) is updated in place, and a fresh row
is appended when no row matches. -/
def store_crawled_page (table : List CrawledPageRow) (pd : PageData)
    (session_id : Nat) (now : String) : List CrawledPageRow :=
  match table with
  | [] => [new_crawled_page pd session_id now]
  | r :: rs =>
    if r.url = pd.url then update_existing_page r pd :: rs
    else r :: store_crawled_page rs pd session_id now

/-! ## Concrete sample data used to instantiate the verified statements -/

/-- A stored `crawled_pages` row used as a concrete re-crawl target. -/
def sample_page_row : CrawledPageRow :=
  { session_id := 7
    url := "http://a.test/"
    original_url := some "http://a.test"
    redirect_chain := some "[]"
    title := some "Old"
    meta_description := none
    content_text := some "old text"
    content_html := none
    content_hash := some "aaaa"
    word_count := some 10
    page_size := some 100
    http_status_code := some 200
    response_time_ms := some 50
    language := some "en"
    charset := some "utf-8"
    h1_tags := some "[h1]"
    h2_tags := some "[h2]"
    meta_keywords := some "[kw]"
    canonical_url := none
    robots_meta := none
    internal_links_count := some 1
    external_links_count := some 2
    images_count := some 3
    content_type := some "html"
    file_extension := none
    crawl_time := "t0" }

/-- Page data for a re-crawl of the same URL. -/
def sample_page_data : PageData :=
  { url := "http://a.test/"
    original_url := some "http://a.test"
    redirect_chain := none
    title := some "New"
    meta_description := some "d"
    content_text := some "new text"
    content_html := some "<p>"
    content_hash := some "bbbb"
    word_count := some 20
    page_size := some 200
    http_status_code := some 200
    response_time_ms := some 60
    language := some "en"
    charset := some "utf-8"
    h1_tags := none
    h2_tags := none
    meta_keywords := none
    canonical_url := none
    robots_meta := none
    internal_links_count := some 3
    external_links_count := some 4
    images_count := some 5
    content_type := some "html"
    file_extension := some ".html" }

/-- A fetched page whose final response URL still carries a fragment, and
whose single link points at the target domain `t.com`. -/
def sample_fetched_page : FetchedPage :=
  { url := { scheme := "http", netloc := "x.com", path := "/p", query := [], fragment := "frag" }
    title := "T"
    links := [{ url := { scheme := "http", netloc := "t.com", path := "/", query := [], fragment := "" }
                anchor_text := "a"
                rel := []
                parent_text := "ctx" }] }

/-- A seed whose host is `t.com`. -/
def sample_seed : UrlParts :=
  { scheme := "http", netloc := "t.com", path := "/", query := [], fragment := "" }

/-- A single backlink record. -/
def sample_backlink : BacklinkRecord :=
  { source_url := "http://s.test/", target_url := "http://t.test/", anchor_text := "a",
    context := "", page_title := "", domain_authority := 0, is_nofollow := false }

/-- A followable backlink from `s.test` to `t.test`. -/
def sample_follow_backlink : BacklinkRecord :=
  { source_url := "http://s.test/", target_url := "http://t.test/", anchor_text := "a",
    context := "c", page_title := "p", domain_authority := 0, is_nofollow := false }

/-- A nofollow backlink over the same ordered pair of URLs. -/
def sample_nofollow_backlink : BacklinkRecord :=
  { source_url := "http://s.test/", target_url := "http://t.test/", anchor_text := "b",
    context := "c", page_title := "p", domain_authority := 0, is_nofollow := true }

/-! ## Supporting lemmas -/

/-- Characterization of the name lookup in `get_specific_db_session`. -/
theorem find_name_eq (pool : List String) (n : String) :
    pool.find? (fun x => x == n) = if n ∈ pool then some n else none := by
  induction pool with
  | nil => simp
  | cons a tl ih =>
    by_cases h : a = n
    · subst h
      simp [List.find?]
    · rw [List.find?_cons_of_neg _ (by simp [h]), ih]
      by_cases hm : n ∈ tl
      · simp [hm]
      · have hna : ¬ n = a := fun e => h e.symm
        simp [hm, hna]

/-- A successful pick in the `_choose_db` loop passed the quota check on
the usage fetched in that same call, and the pick appears among the
backends whose usage the call fetched. -/
theorem choose_db_loop_quota (pool : List String) (usage : String → Option Usage)
    (name : String) :
    ∀ (n pos : Nat) (checked fetched : List String),
      (choose_db_loop pool usage n pos checked fetched).1 = some name →
      check_quota (usage name) = true ∧
        name ∈ (choose_db_loop pool usage n pos checked fetched).2 := by
  intro n
  induction n with
  | zero =>
    intro pos checked fetched h
    simp [choose_db_loop] at h
  | succ k ih =>
    intro pos checked fetched h
    rw [choose_db_loop] at h ⊢
    cases hg : pool.get? (pos % pool.length) with
    | none =>
      rw [hg] at h
      simp at h
    | some cand =>
      rw [hg] at h
      dsimp only at h ⊢
      by_cases hc : cand ∈ checked
      · rw [if_pos hc] at h ⊢
        exact ih (pos + 1) checked fetched h
      · rw [if_neg hc] at h ⊢
        by_cases hq : check_quota (usage cand)
        · rw [if_pos hq] at h ⊢
          simp only at h
          have : cand = name := by
            have := h
            simpa using this
          subst this
          exact ⟨hq, by simp⟩
        · rw [if_neg hq] at h ⊢
          exact ih (pos + 1) (cand :: checked) (cand :: fetched) h

/-! ## Claim theorems -/

/-- C7 counterexample: `get_specific_db_session` can fail for a name that
is present in the pool — here the single crawl backend `db1` is in the
pool but reports storage usage at the 5 GiB limit, and the call raises the
over-quota error instead of returning a session. -/
theorem get_specific_db_session_cx :
    "db1" ∈ ["db1"] ∧
      get_specific_db_session ["db1"]
          (fun _ => some { storage_bytes := some STORAGE_LIMIT_BYTES, rows_written := some 0 })
          "db1"
        = Except.error (db_over_quota_msg "db1") := by
  refine ⟨by simp, ?_⟩
  rfl

/-- C7 (amended): `get_specific_db_session` returns a session bound to the
named backend exactly when the name is present in the requested pool and
that backend passes the quota check; it fails for absent names and also
for present backends that are over quota. -/
theorem get_specific_db_session_spec (pool : List String)
    (usage : String → Option Usage) (db_name : String) :
    get_specific_db_session pool usage db_name =
      if db_name ∈ pool then
        (if check_quota (usage db_name) then Except.ok db_name
         else Except.error (db_over_quota_msg db_name))
      else Except.error (db_not_found_msg db_name) := by
  unfold get_specific_db_session
  rw [find_name_eq]
  by_cases h : db_name ∈ pool
  · rw [if_pos h, if_pos h]
  · rw [if_neg h, if_neg h]

/-- C1 counterexample: a `choose()` call does not re-fetch the quota usage
of every backend in the requested pool — with two healthy crawl backends
the call fetches only the first one and returns it, never querying the
second. -/
theorem choose_db_cx :
    choose_db ["db_a", "db_b"]
        (fun _ => some { storage_bytes := some 0, rows_written := some 0 }) 0
      = Except.ok (some "db_a", ["db_a"]) ∧
      "db_b" ∈ ["db_a", "db_b"] ∧ "db_b" ∉ ["db_a"] := by
  refine ⟨rfl, by simp, by simp⟩

/-- C1 (amended): any backend `_choose_db` returns passed the quota check
performed during that same call — its usage was fetched in the call and
reported `storage_bytes` strictly below `5·2³⁰` and `rows_written`
strictly below `10⁷`; consequently a backend whose freshly fetched usage
violates either limit is never returned. Only the backends the call
examines have their usage re-fetched. -/
theorem choose_db_returns_under_quota (pool : List String)
    (usage : String → Option Usage) (startPos : Nat)
    (res : Option String × List String) (name : String)
    (hres : choose_db pool usage startPos = Except.ok res)
    (hname : res.1 = some name) :
    (∃ u, usage name = some u ∧
        u.storage_bytes.getD 0 < 5 * 2 ^ 30 ∧ u.rows_written.getD 0 < 10 ^ 7) ∧
      name ∈ res.2 := by
  unfold choose_db at hres
  by_cases hp : pool = []
  · rw [if_pos hp] at hres
    exact absurd hres (by simp)
  · rw [if_neg hp] at hres
    have hres' : res = choose_db_loop pool usage pool.length startPos [] [] := by
      have := hres
      simpa using this.symm
    subst hres'
    obtain ⟨hq, hf⟩ := choose_db_loop_quota pool usage name pool.length startPos [] [] hname
    refine ⟨?_, hf⟩
    unfold check_quota at hq
    cases hu : usage name with
    | none => rw [hu] at hq; simp at hq
    | some u =>
      rw [hu] at hq
      simp only [Bool.and_eq_true, decide_eq_true_eq] at hq
      refine ⟨u, rfl, ?_, ?_⟩
      · have e1 : STORAGE_LIMIT_BYTES = 5 * 2 ^ 30 := by norm_num [STORAGE_LIMIT_BYTES]
        rw [← e1]
        exact hq.1
      · have e2 : DAILY_WRITE_LIMIT = 10 ^ 7 := by norm_num [DAILY_WRITE_LIMIT]
        rw [← e2]
        exact hq.2

/-- Witness for the amended C1 theorem at a concrete call: two healthy
backends, round-robin position 0; the returned backend `db_a` passed the
quota check on the usage fetched in the call. -/
theorem choose_db_returns_under_quota_witness :
    (∃ u, (fun _ : String => some ({ storage_bytes := some 0, rows_written := some 0 } : Usage))
          "db_a" = some u ∧
        u.storage_bytes.getD 0 < 5 * 2 ^ 30 ∧ u.rows_written.getD 0 < 10 ^ 7) ∧
      "db_a" ∈ (some "db_a", ["db_a"]).2 :=
  choose_db_returns_under_quota ["db_a", "db_b"]
    (fun _ => some { storage_bytes := some 0, rows_written := some 0 }) 0
    (some "db_a", ["db_a"]) "db_a" rfl rfl

/-- C3 counterexample: at `base_delay = 1` on a non-social host, the sleep
before retry attempt 1 with uniform draw `u = 3/2` is
`1 * (1 + 3/2) = 5/2`, while the claimed formula `base_delay * k * u`
yields values in `[1, 2]` only; no admissible draw reproduces the slept
delay. -/
theorem retry_sleep_cx :
    retry_sleep 1 false 1 (3 / 2) = some (5 / 2) ∧
      ¬ ∃ u : ℚ, 1 ≤ u ∧ u ≤ 2 ∧ retry_sleep 1 false 1 (3 / 2) = some (1 * 1 * u) := by
  constructor
  · norm_num [retry_sleep, current_delay]
  · rintro ⟨u, h1, h2, h⟩
    simp only [retry_sleep, current_delay, if_true, if_false, Bool.false_eq_true,
      Nat.cast_one, gt_iff_lt, Nat.lt_irrefl] at h
    norm_num at h
    linarith

/-- C3 (amended): before retry attempt `k ≥ 1` the fetcher sleeps
`current_delay * (k + u)` seconds, where `u` is drawn uniformly from
`[1, 2]` and `current_delay` is the configured delay, tripled for
social-media hosts; with a nonnegative configured delay the slept value
lies between `current_delay * (k + 1)` and `current_delay * (k + 2)`. -/
theorem retry_sleep_eq (delay : ℚ) (social : Bool) (attempt : Nat) (u : ℚ)
    (h0 : 0 ≤ delay) (h1 : 1 ≤ u) (h2 : u ≤ 2) (ha : 1 ≤ attempt) :
    retry_sleep delay social attempt u
        = some (current_delay delay social * (attempt + u)) ∧
      current_delay delay social * (attempt + 1)
          ≤ current_delay delay social * (attempt + u) ∧
      current_delay delay social * (attempt + u)
          ≤ current_delay delay social * (attempt + 2) := by
  have hcd : 0 ≤ current_delay delay social := by
    cases social <;> simp [current_delay] <;> linarith
  refine ⟨?_, ?_, ?_⟩
  · unfold retry_sleep
    rw [if_pos (by omega)]
  · exact mul_le_mul_of_nonneg_left (by linarith) hcd
  · exact mul_le_mul_of_nonneg_left (by linarith) hcd

/-- Witness for the amended C3 theorem: retry attempt 1, base delay 1,
non-social host, draw 3/2. -/
theorem retry_sleep_eq_witness :
    retry_sleep 1 false 1 (3 / 2) = some (current_delay 1 false * ((1 : Nat) + 3 / 2)) ∧
      current_delay 1 false * ((1 : Nat) + 1) ≤ current_delay 1 false * ((1 : Nat) + 3 / 2) ∧
      current_delay 1 false * ((1 : Nat) + 3 / 2) ≤ current_delay 1 false * ((1 : Nat) + 2) :=
  retry_sleep_eq 1 false 1 (3 / 2) (by norm_num) (by norm_num) (by norm_num) (by norm_num)

/-- C4 counterexample: `normalize_url` does not lowercase the host — the
normalized form of `http://EXAMPLE.com/x` still carries the mixed-case
network location. -/
theorem normalize_url_cx :
    (normalize_url
        { scheme := "http", netloc := "EXAMPLE.com", path := "/x", query := [],
          fragment := "" }).netloc = "EXAMPLE.com" ∧
      'E' ∈ "EXAMPLE.com".data ∧ 'E'.isUpper = true := by
  refine ⟨rfl, by decide, by decide⟩

/-- C4 (amended): normalization lowercases the scheme, strips the
fragment, leaves the path untouched, sorts the query parameters by name
(keeping the first value of each repeated name), and passes the host
through with its case preserved. -/
theorem normalize_url_spec (p : UrlParts) :
    (normalize_url p).scheme = strToLower p.scheme ∧
      (normalize_url p).netloc = p.netloc ∧
      (normalize_url p).path = p.path ∧
      (normalize_url p).fragment = "" ∧
      List.Sorted queryLE (normalize_url p).query := by
  unfold normalize_url pyUrlparse
  dsimp only
  split
  · rename_i h
    refine ⟨rfl, rfl, rfl, rfl, ?_⟩
    rw [show ({ p with scheme := strToLower p.scheme, fragment := "" } : UrlParts).query
        = p.query from rfl]
    rw [show p.query = [] from h]
    exact List.sorted_nil
  · exact ⟨rfl, rfl, rfl, rfl, List.sorted_insertionSort queryLE (firstValues p.query)⟩

/-- C9 (confirmed): committing a non-empty batch for page `p` saves a
progress record whose `current_page` is `p + 1` and whose
`urls_processed` grew by the number of URLs in that batch, for both the
normal and the exception path of `crawl_single_batch`. -/
theorem batch_progress_spec (pd : ProgressData) (page : Nat)
    (batch_urls : List String) (outcome : BatchOutcome)
    (hne : batch_urls ≠ []) :
    (update_page_progress pd page (crawl_single_batch batch_urls outcome)).current_page
        = page + 1 ∧
      (update_page_progress pd page (crawl_single_batch batch_urls outcome)).urls_processed
        = pd.urls_processed + batch_urls.length := by
  unfold crawl_single_batch update_page_progress
  cases outcome <;> simp [hne]

/-- Witness for the C9 theorem: one batch of two URLs committed for
page 4 moves `current_page` to 5 and adds 2 to `urls_processed`. -/
theorem batch_progress_spec_witness :
    (update_page_progress
        { current_page := 4, batch_size := 50, total_urls := 10, urls_processed := 6,
          successful_crawls := 5, failed_crawls := 1, is_running := true }
        4 (crawl_single_batch ["http://a.test/", "http://b.test/"] (BatchOutcome.ok 2 0))).current_page
      = 4 + 1 ∧
      (update_page_progress
          { current_page := 4, batch_size := 50, total_urls := 10, urls_processed := 6,
            successful_crawls := 5, failed_crawls := 1, is_running := true }
          4 (crawl_single_batch ["http://a.test/", "http://b.test/"] (BatchOutcome.ok 2 0))).urls_processed
        = 6 + (["http://a.test/", "http://b.test/"] : List String).length :=
  batch_progress_spec _ 4 _ (BatchOutcome.ok 2 0) (by simp)

/-- C10 (confirmed): when `store_crawled_page` finds an existing row for
the URL, the table keeps its size, the found row is replaced by its
updated version, and the update leaves `session_id`, `url`,
`original_url`, `redirect_chain`, `h1_tags`, `h2_tags`, `meta_keywords`
and `crawl_time` unchanged while overwriting the content and metric
fields from `page_data`. -/
theorem store_crawled_page_update_frame (table : List CrawledPageRow)
    (pd : PageData) (sid : Nat) (now : String) (r : CrawledPageRow)
    (hr : table.find? (fun x => x.url == pd.url) = some r) :
    (store_crawled_page table pd sid now).length = table.length ∧
      update_existing_page r pd ∈ store_crawled_page table pd sid now ∧
      (update_existing_page r pd).session_id = r.session_id ∧
      (update_existing_page r pd).url = r.url ∧
      (update_existing_page r pd).original_url = r.original_url ∧
      (update_existing_page r pd).redirect_chain = r.redirect_chain ∧
      (update_existing_page r pd).h1_tags = r.h1_tags ∧
      (update_existing_page r pd).h2_tags = r.h2_tags ∧
      (update_existing_page r pd).meta_keywords = r.meta_keywords ∧
      (update_existing_page r pd).crawl_time = r.crawl_time ∧
      (update_existing_page r pd).title = pd.title ∧
      (update_existing_page r pd).content_text = pd.content_text ∧
      (update_existing_page r pd).content_hash = pd.content_hash ∧
      (update_existing_page r pd).http_status_code = pd.http_status_code := by
  have main : (store_crawled_page table pd sid now).length = table.length ∧
      update_existing_page r pd ∈ store_crawled_page table pd sid now := by
    induction table with
    | nil => simp [List.find?] at hr
    | cons x xs ih =>
      by_cases hx : x.url = pd.url
      · rw [List.find?_cons_of_pos _ (by simp [hx])] at hr
        have hxr : x = r := by simpa using hr
        subst hxr
        unfold store_crawled_page
        rw [if_pos hx]
        exact ⟨by simp, by simp⟩
      · rw [List.find?_cons_of_neg _ (by simp [hx])] at hr
        obtain ⟨hl, hm⟩ := ih hr
        unfold store_crawled_page
        rw [if_neg hx]
        exact ⟨by simp [hl], by simp [hm]⟩
  exact ⟨main.1, main.2, rfl, rfl, rfl, rfl, rfl, rfl, rfl, rfl, rfl, rfl, rfl, rfl⟩

/-- Witness for the C10 theorem: re-crawling `http://a.test/` against a
one-row table updates that row in place. -/
theorem store_crawled_page_update_frame_witness :
    (store_crawled_page [sample_page_row] sample_page_data 9 "t1").length
        = [sample_page_row].length ∧
      update_existing_page sample_page_row sample_page_data
          ∈ store_crawled_page [sample_page_row] sample_page_data 9 "t1" ∧
      (update_existing_page sample_page_row sample_page_data).session_id
          = sample_page_row.session_id ∧
      (update_existing_page sample_page_row sample_page_data).url = sample_page_row.url ∧
      (update_existing_page sample_page_row sample_page_data).original_url
          = sample_page_row.original_url ∧
      (update_existing_page sample_page_row sample_page_data).redirect_chain
          = sample_page_row.redirect_chain ∧
      (update_existing_page sample_page_row sample_page_data).h1_tags
          = sample_page_row.h1_tags ∧
      (update_existing_page sample_page_row sample_page_data).h2_tags
          = sample_page_row.h2_tags ∧
      (update_existing_page sample_page_row sample_page_data).meta_keywords
          = sample_page_row.meta_keywords ∧
      (update_existing_page sample_page_row sample_page_data).crawl_time
          = sample_page_row.crawl_time ∧
      (update_existing_page sample_page_row sample_page_data).title
          = sample_page_data.title ∧
      (update_existing_page sample_page_row sample_page_data).content_text
          = sample_page_data.content_text ∧
      (update_existing_page sample_page_row sample_page_data).content_hash
          = sample_page_data.content_hash ∧
      (update_existing_page sample_page_row sample_page_data).http_status_code
          = sample_page_data.http_status_code :=
  store_crawled_page_update_frame [sample_page_row] sample_page_data 9 "t1"
    sample_page_row rfl

/-- Fragment of a normalized URL: `normalize_url` always clears it. -/
theorem normalize_url_fragment (p : UrlParts) : (normalize_url p).fragment = "" := by
  unfold normalize_url pyUrlparse
  dsimp only
  split <;> rfl

/-- C8 counterexample: a fetched page whose final response URL carries a
fragment emits a backlink whose `source_url` is that URL verbatim; since
every output of `normalize_url` has an empty fragment, this `source_url`
is not a normalized URL. -/
theorem extract_backlinks_cx :
    (extract_backlinks sample_fetched_page (target_domains_of [sample_seed])).map
        (fun b => b.source_url.fragment) = ["frag"] ∧
      ∀ raw : UrlParts, (normalize_url raw).fragment = "" :=
  ⟨rfl, normalize_url_fragment⟩

/-- C8 (amended): every backlink the extractor emits has a `target_url`
in the image of `normalize_url` whose host is the host of one of the
seeds, while its `source_url` is the fetched page URL passed through
verbatim (and therefore normalized only when that URL already is). -/
theorem extract_backlinks_spec (page : FetchedPage) (seeds : List UrlParts)
    (b : BacklinkData)
    (hb : b ∈ extract_backlinks page (target_domains_of seeds)) :
    (∃ raw, b.target_url = normalize_url raw) ∧
      (∃ s, s ∈ seeds ∧ b.target_url.netloc = s.netloc) ∧
      b.source_url = page.url := by
  simp only [extract_backlinks, List.mem_filterMap] at hb
  obtain ⟨link, _hlink, heq⟩ := hb
  split at heq
  · split at heq
    · rename_i hm
      have hbe := Option.some.inj heq
      subst hbe
      refine ⟨⟨link.url, rfl⟩, ?_, rfl⟩
      unfold target_domains_of at hm
      rcases List.mem_map.mp hm with ⟨s, hs, he⟩
      exact ⟨s, hs, he.symm⟩
    · exact absurd heq (by simp)
  · exact absurd heq (by simp)

/-- Witness for the amended C8 theorem at the sample page and seed. -/
theorem extract_backlinks_spec_witness :
    (∃ raw, (BacklinkData.mk sample_fetched_page.url
          (normalize_url sample_seed) "a" "ctx" "T" false).target_url
        = normalize_url raw) ∧
      (∃ s, s ∈ [sample_seed] ∧
        (BacklinkData.mk sample_fetched_page.url
            (normalize_url sample_seed) "a" "ctx" "T" false).target_url.netloc
          = s.netloc) ∧
      (BacklinkData.mk sample_fetched_page.url
          (normalize_url sample_seed) "a" "ctx" "T" false).source_url
        = sample_fetched_page.url :=
  extract_backlinks_spec sample_fetched_page [sample_seed] _ (by decide)

/-- C2: the `backlinks` table declares no uniqueness constraint over
`(source_url, target_url, anchor_text)` and `store_backlinks` inserts
every record unconditionally, so storing the same list twice doubles the
row count instead of leaving it unchanged after the second call. -/
theorem store_backlinks_not_idempotent :
    (store_backlinks [] [sample_backlink]).length = 1 ∧
      (store_backlinks (store_backlinks [] [sample_backlink]) [sample_backlink]).length
        = 2 := by
  exact ⟨rfl, rfl⟩

/-- Updating or inserting one edge changes exactly the looked-up pair. -/
theorem edge_weight_add_edge (s t u v : String) (w : ℚ) (g : LinkGraph) :
    edge_weight (add_edge g s t w) u v
      = if (u, v) = (s, t) then some w else edge_weight g u v := by
  induction g with
  | nil =>
    by_cases h : (u, v) = (s, t)
    · simp [add_edge, edge_weight, h]
    · have h2 : ¬ (s, t) = (u, v) := fun e => h e.symm
      rw [if_neg h]
      show (if (s, t) = (u, v) then some w else edge_weight [] u v) = edge_weight [] u v
      rw [if_neg h2]
  | cons e es ih =>
    unfold add_edge
    by_cases he : e.1 = (s, t)
    · rw [if_pos he]
      by_cases h : (u, v) = (s, t)
      · simp [edge_weight, h]
      · have h2 : ¬ (s, t) = (u, v) := fun e2 => h e2.symm
        have h3 : ¬ e.1 = (u, v) := by rw [he]; exact h2
        simp [edge_weight, h, h2, h3]
    · rw [if_neg he]
      by_cases hh : e.1 = (u, v)
      · have h2 : ¬ (u, v) = (s, t) := fun e2 => he (by rw [hh, e2])
        simp [edge_weight, hh, h2]
      · simp [edge_weight, hh, ih]

/-- Folding `add_edge` calls over backlinks realizes a last-write-wins
lookup for each ordered pair. -/
theorem edge_weight_build_aux (u v : String) (bs : List BacklinkRecord) :
    ∀ g : LinkGraph,
      edge_weight
          (bs.foldl (fun g b => add_edge g b.source_url b.target_url (link_weight b)) g) u v
        = bs.foldl (fun acc b =>
            if b.source_url = u ∧ b.target_url = v then some (link_weight b) else acc)
            (edge_weight g u v) := by
  induction bs with
  | nil => intro g; rfl
  | cons b rest ih =>
    intro g
    simp only [List.foldl_cons]
    rw [ih]
    congr 1
    rw [edge_weight_add_edge]
    by_cases h : b.source_url = u ∧ b.target_url = v
    · rw [if_pos h, if_pos (by simp [h.1, h.2])]
    · rw [if_neg h, if_neg]
      intro e
      have hp := Prod.mk.injEq u v b.source_url b.target_url ▸ e
      exact h ⟨((Prod.mk.injEq u v b.source_url b.target_url).mp e).1.symm,
        ((Prod.mk.injEq u v b.source_url b.target_url).mp e).2.symm⟩

/-- The lookup of the last matching backlink commutes with taking the
edge weight. -/
theorem last_backlink_map (u v : String) (bs : List BacklinkRecord) :
    ∀ acc : Option BacklinkRecord,
      ((bs.foldl (fun acc b =>
          if b.source_url = u ∧ b.target_url = v then some b else acc) acc).map link_weight)
        = bs.foldl (fun acc2 b =>
            if b.source_url = u ∧ b.target_url = v then some (link_weight b) else acc2)
            (acc.map link_weight) := by
  induction bs with
  | nil => intro acc; rfl
  | cons b rest ih =>
    intro acc
    simp only [List.foldl_cons]
    rw [ih]
    congr 1
    by_cases h : b.source_url = u ∧ b.target_url = v
    · rw [if_pos h, if_pos h]
      rfl
    · rw [if_neg h, if_neg h]

/-- Key membership after `add_edge`. -/
theorem mem_keys_add_edge (s t : String) (w : ℚ) (k : String × String) (g : LinkGraph) :
    k ∈ (add_edge g s t w).map Prod.fst ↔ k ∈ g.map Prod.fst ∨ k = (s, t) := by
  induction g with
  | nil => simp [add_edge]
  | cons e es ih =>
    unfold add_edge
    by_cases he : e.1 = (s, t)
    · rw [if_pos he]
      simp [he]
      tauto
    · rw [if_neg he]
      simp [ih]
      tauto

/-- Lemma: `add_edge` preserves distinctness of the edge keys. -/
theorem keys_nodup_add_edge (s t : String) (w : ℚ) (g : LinkGraph)
    (h : (g.map Prod.fst).Nodup) : ((add_edge g s t w).map Prod.fst).Nodup := by
  induction g with
  | nil => simp [add_edge]
  | cons e es ih =>
    unfold add_edge
    simp only [List.map_cons, List.nodup_cons] at h
    by_cases he : e.1 = (s, t)
    · rw [if_pos he]
      simp only [List.map_cons, List.nodup_cons]
      exact ⟨he ▸ h.1, h.2⟩
    · rw [if_neg he]
      simp only [List.map_cons, List.nodup_cons]
      refine ⟨?_, ih h.2⟩
      intro hmem
      rcases (mem_keys_add_edge s t w e.1 es).mp hmem with h1 | h2
      · exact h.1 h1
      · exact he h2

/-- The built link graph never holds two edges with the same key. -/
theorem keys_nodup_build (bs : List BacklinkRecord) :
    ((build_link_graph bs).map Prod.fst).Nodup := by
  unfold build_link_graph
  suffices h : ∀ (bs : List BacklinkRecord) (g : LinkGraph), (g.map Prod.fst).Nodup →
      ((bs.foldl (fun g b => add_edge g b.source_url b.target_url (link_weight b)) g).map
        Prod.fst).Nodup by
    exact h bs [] (by simp)
  intro bs
  induction bs with
  | nil => intro g hg; exact hg
  | cons b rest ih =>
    intro g hg
    exact ih _ (keys_nodup_add_edge _ _ _ _ hg)

/-- With distinct keys, at most one edge matches a given pair. -/
theorem countP_le_one_of_nodup (u v : String) (g : LinkGraph)
    (h : (g.map Prod.fst).Nodup) :
    g.countP (fun e => e.1 == (u, v)) ≤ 1 := by
  induction g with
  | nil => simp
  | cons e es ih =>
    simp only [List.map_cons, List.nodup_cons] at h
    by_cases he : e.1 = (u, v)
    · rw [List.countP_cons_of_pos _ _ (by simp [he])]
      have hz : es.countP (fun e => e.1 == (u, v)) = 0 := by
        rw [List.countP_eq_zero]
        intro a ha hpa
        have : a.1 = (u, v) := by simpa using hpa
        exact h.1 (by
          rw [he, ← this]
          exact List.mem_map_of_mem Prod.fst ha)
      omega
    · rw [List.countP_cons_of_neg _ _ (by simp [he])]
      exact ih h.2

/-- C6 counterexample: with a followable and then a nofollow backlink over
the same ordered pair, the built graph records weight `0.1` (the last
write), while the specified maximum of the recorded weights is `1.0`. -/
theorem build_link_graph_cx :
    edge_weight (build_link_graph [sample_follow_backlink, sample_nofollow_backlink])
        "http://s.test/" "http://t.test/" = some (1 / 10) ∧
      spec_max_weight [sample_follow_backlink, sample_nofollow_backlink]
        "http://s.test/" "http://t.test/" = some 1 ∧
      ((1 : ℚ) / 10) ≠ 1 := by
  refine ⟨?_, ?_, by norm_num⟩
  · simp [build_link_graph, add_edge, edge_weight, link_weight,
      sample_follow_backlink, sample_nofollow_backlink]
  · simp [spec_max_weight, link_weight, sample_follow_backlink,
      sample_nofollow_backlink, List.max?]
    norm_num [max_eq_left]

/-- C6 (amended): after building the link graph each ordered pair with at
least one recorded backlink carries exactly one edge, and its weight is
that of the last recorded backlink over the pair (`1.0` followable, `0.1`
nofollow) — not the maximum over all of them. -/
theorem build_link_graph_last_weight (bs : List BacklinkRecord) (u v : String) :
    edge_weight (build_link_graph bs) u v = (last_backlink_to bs u v).map link_weight ∧
      (build_link_graph bs).countP (fun e => e.1 == (u, v)) ≤ 1 := by
  constructor
  · unfold build_link_graph last_backlink_to
    rw [edge_weight_build_aux, last_backlink_map]
    rfl
  · exact countP_le_one_of_nodup u v _ (keys_nodup_build bs)

/-- Applying upserts to a concatenation composes. -/
theorem apply_upserts_append (t l1 l2 : List (String × ℚ)) :
    apply_upserts t (l1 ++ l2) = apply_upserts (apply_upserts t l1) l2 := by
  unfold apply_upserts
  rw [List.foldl_append]

/-- Every chunk produced by `chunksOf n` has at most `n` elements. -/
theorem chunksOf_mem_length {α : Type} (n : Nat) (l c : List α)
    (hc : c ∈ chunksOf n l) : c.length ≤ n := by
  unfold chunksOf at hc
  generalize hf : l.length = fuel at hc
  clear hf
  induction fuel generalizing l with
  | zero => cases l <;> simp [chunksOfFuel] at hc
  | succ fuel ih =>
    cases l with
    | nil => simp [chunksOfFuel] at hc
    | cons a tl =>
      rw [chunksOfFuel] at hc
      rcases List.mem_cons.mp hc with h | h
      · subst h
        simp [List.length_take]
      · exact ih _ h

/-- Skip-on-error over chunks: a run with failing chunk indices equals a
clean run over the concatenation of the surviving chunks. -/
theorem store_domain_scores_skip (fails : Nat → Bool)
    (table entries : List (String × ℚ)) :
    store_domain_scores fails table entries
      = apply_upserts table
          ((((chunksOf 1000 entries).enum.filter (fun c => !(fails c.1))).map
            Prod.snd).flatten) := by
  unfold store_domain_scores
  generalize (chunksOf 1000 entries).enum = cs
  induction cs generalizing table with
  | nil => simp [apply_upserts]
  | cons c rest ih =>
    simp only [List.foldl_cons, List.filter_cons]
    by_cases h : fails c.1
    · simp only [h, Bool.not_true, Bool.false_eq_true, if_false, if_pos]
      exact ih table
    · simp only [h, Bool.not_false, if_true, Bool.false_eq_true, if_neg, not_false_iff]
      rw [List.map_cons, List.flatten_cons, apply_upserts_append]
      exact ih (apply_upserts table c.2)

/-- A failure-free pagerank loop commits all remaining upserts. -/
theorem store_pagerank_loop_ok (fails : Nat → Bool)
    (hnf : ∀ j, fails j = false) (rest : List (String × ℚ)) :
    ∀ (committed view : List (String × ℚ)) (count idx : Nat),
      store_pagerank_loop fails rest committed view count idx
        = Except.ok (apply_upserts view rest) := by
  induction rest with
  | nil => intro committed view count idx; rfl
  | cons e rest ih =>
    intro committed view count idx
    rw [store_pagerank_loop, hnf idx]
    simp only [Bool.false_eq_true, if_false]
    exact ih _ _ _ _

/-- An erroring pagerank loop leaves as table state the work committed at
the last intermediate commit: a prefix of the entry list whose length is a
multiple of 100. -/
theorem store_pagerank_loop_error (fails : Nat → Bool) (table : List (String × ℚ))
    (entries : List (String × ℚ)) :
    ∀ (rest done cp cr s : List (String × ℚ)),
      entries = done ++ rest →
      done = cp ++ cr →
      100 ∣ cp.length →
      store_pagerank_loop fails rest (apply_upserts table cp) (apply_upserts table done)
          done.length done.length = Except.error s →
      ∃ p2 r2, entries = p2 ++ r2 ∧ 100 ∣ p2.length ∧ s = apply_upserts table p2 := by
  intro rest
  induction rest with
  | nil =>
    intro done cp cr s he hd hdvd hrun
    simp [store_pagerank_loop] at hrun
  | cons e rest ih =>
    intro done cp cr s he hd hdvd hrun
    rw [store_pagerank_loop] at hrun
    by_cases hf : fails done.length = true
    · rw [if_pos hf] at hrun
      have hs : apply_upserts table cp = s := by
        simpa using hrun
      exact ⟨cp, cr ++ e :: rest, by rw [he, hd, List.append_assoc], hdvd, hs.symm⟩
    · rw [if_neg hf] at hrun
      dsimp only at hrun
      have hview : upsert_score (apply_upserts table done) e.1 e.2
          = apply_upserts table (done ++ [e]) := by
        rw [apply_upserts_append]
        rfl
      by_cases hc : (done.length + 1) % 100 = 0
      · rw [if_pos hc] at hrun
        refine ih (done ++ [e]) (done ++ [e]) [] s ?_ ?_ ?_ ?_
        · rw [he, List.append_assoc]
          rfl
        · simp
        · simp only [List.length_append, List.length_singleton]
          exact Nat.dvd_of_mod_eq_zero hc
        · rw [← hview]
          simpa [List.length_append] using hrun
      · rw [if_neg hc] at hrun
        refine ih (done ++ [e]) cp (cr ++ [e]) s ?_ ?_ hdvd ?_
        · rw [he, List.append_assoc]
          rfl
        · rw [hd, List.append_assoc]
        · rw [← hview]
          simpa [List.length_append] using hrun

set_option maxRecDepth 20000 in
/-- C5 counterexample: storing 150 pagerank entries for the same URL with
an error on the 150th entry leaves the 100-entry intermediate commit in
the table and aborts, instead of rolling back and skipping a 1,000-entry
chunk (which would leave the table empty) and continuing. -/
theorem store_pagerank_scores_cx :
    store_pagerank_scores (fun i => i == 149) []
        (List.replicate 150 ("u", (1 : ℚ)))
      = Except.error [("u", 1)] ∧
      ([("u", (1 : ℚ))] : List (String × ℚ)) ≠ [] := by
  constructor
  · rfl
  · simp

/-- C5 (amended): `store_domain_scores` processes its input in chunks of
1,000 entries with the skip-on-error policy — a failed chunk is rolled
back and skipped while the remaining chunks still run. In contrast,
`store_pagerank_scores` processes all entries in one session with an
intermediate commit every 100 records: without errors every entry is
upserted, and on an error it aborts, retaining exactly a committed prefix
of the entries whose length is a multiple of 100 and processing no
subsequent entries. -/
theorem score_store_policies :
    (∀ (fails : Nat → Bool) (table entries : List (String × ℚ)),
        store_domain_scores fails table entries
          = apply_upserts table
              ((((chunksOf 1000 entries).enum.filter (fun c => !(fails c.1))).map
                Prod.snd).flatten)) ∧
      (∀ (entries c : List (String × ℚ)), c ∈ chunksOf 1000 entries →
        c.length ≤ 1000) ∧
      (∀ (fails : Nat → Bool) (table entries : List (String × ℚ)),
        (∀ j, fails j = false) →
        store_pagerank_scores fails table entries
          = Except.ok (apply_upserts table entries)) ∧
      (∀ (fails : Nat → Bool) (table entries s : List (String × ℚ)),
        store_pagerank_scores fails table entries = Except.error s →
        ∃ p2 r2, entries = p2 ++ r2 ∧ 100 ∣ p2.length ∧ s = apply_upserts table p2) := by
  refine ⟨store_domain_scores_skip, fun entries c hc => chunksOf_mem_length 1000 entries c hc,
    ?_, ?_⟩
  · intro fails table entries hnf
    exact store_pagerank_loop_ok fails hnf entries table table 0 0
  · intro fails table entries s hrun
    exact store_pagerank_loop_error fails table entries entries [] [] [] s rfl rfl
      (Dvd.intro 0 rfl) hrun

/-- Witness for the C5 theorem at concrete inputs: a clean one-chunk
domain-score run, the chunk bound for a singleton input, a clean pagerank
run, and an erroring pagerank run whose surviving table state is the empty
committed prefix. -/
theorem score_store_policies_witness :
    (store_domain_scores (fun _ => false) [] [("a", (1 : ℚ))]
        = apply_upserts []
            ((((chunksOf 1000 [("a", (1 : ℚ))]).enum.filter
              (fun c => !((fun _ => false) c.1))).map Prod.snd).flatten)) ∧
      ([("a", (1 : ℚ))] : List (String × ℚ)).length ≤ 1000 ∧
      (store_pagerank_scores (fun _ => false) [] [("a", (1 : ℚ))]
        = Except.ok (apply_upserts [] [("a", (1 : ℚ))])) ∧
      (∃ p2 r2, ([("a", (1 : ℚ))] : List (String × ℚ)) = p2 ++ r2 ∧
        100 ∣ p2.length ∧ ([] : List (String × ℚ)) = apply_upserts [] p2) :=
  ⟨score_store_policies.1 (fun _ => false) [] [("a", 1)],
    score_store_policies.2.1 [("a", 1)] [("a", 1)] (by
      show [("a", (1 : ℚ))] ∈ chunksOf 1000 [("a", (1 : ℚ))]
      rw [show chunksOf 1000 [("a", (1 : ℚ))] = [[("a", (1 : ℚ))]] from rfl]
      exact List.mem_singleton.mpr rfl),
    score_store_policies.2.2.1 (fun _ => false) [] [("a", 1)] (fun _ => rfl),
    score_store_policies.2.2.2 (fun _ => true) [] [("a", 1)] [] rfl⟩

end RatCrawler
